import Mathlib

/-!
# Out-of-band signing commands (`cmd/signing.go`)

A shallow embedding of the two command actions of `cmd/signing.go`:

* `SignDigest`: loads every key share of a directory, decodes the digest, starts one
  signing task per share under one shared context, joins on all of them and reports
  every outcome;
* `DecryptKeyShare`: looks up the signers of a keep and writes the first one to a
  file that must not exist yet.

Everything the commands call outside of the file (file system, key share
deserialisation, the threshold signing protocol, the keep registry, ...) is a field of
a record of collaborators, so that every statement below holds for all of them.
Go `error` values are carried by their message, `none` being `nil`.
-/

namespace KeepEcdsa

/-- A byte string: one natural number below 256 for each byte. -/
abbrev Bytes := List Nat

/-! ## `encoding/hex` -/

/-- The value of one hexadecimal digit (`fromHexChar` of `encoding/hex`). -/
def fromHexChar (c : Char) : Option Nat :=
  if '0' ≤ c ∧ c ≤ '9' then some (c.toNat - '0'.toNat)
  else if 'a' ≤ c ∧ c ≤ 'f' then some (c.toNat - 'a'.toNat + 10)
  else if 'A' ≤ c ∧ c ≤ 'F' then some (c.toNat - 'A'.toNat + 10)
  else none

/-- The message of `hex.InvalidByteError`. -/
def invalidByteError (c : Char) : String :=
  "encoding/hex: invalid byte: " ++ String.singleton c

/-- The message of `hex.ErrLength`. -/
def errLength : String := "encoding/hex: odd length hex string"

/-- The loop of `hex.Decode`: digits are consumed two at a time, the first digit that is
not hexadecimal is reported, and a single trailing digit is checked before the odd
length is reported. -/
def hexDecode : List Char → Except String Bytes
  | [] => .ok []
  | [a] =>
    match fromHexChar a with
    | none => .error (invalidByteError a)
    | some _ => .error errLength
  | a :: b :: rest =>
    match fromHexChar a with
    | none => .error (invalidByteError a)
    | some hi =>
      match fromHexChar b with
      | none => .error (invalidByteError b)
      | some lo =>
        match hexDecode rest with
        | .error e => .error e
        | .ok bytes => .ok ((hi * 16 + lo) :: bytes)

/-- The function `hex.DecodeString`. A character outside ASCII stands for bytes that are
no hexadecimal digits, and is rejected like them. -/
def hexDecodeString (s : String) : Except String Bytes :=
  hexDecode s.toList

/-! ## `SignDigest` -/

/-- The collaborators of `SignDigest`.

`calculateSignature` is `tss.ThresholdSigner.CalculateSignature`, a run of a network
protocol: what it returns is not determined by its arguments, so its first argument
names the task (the index of the signer) that makes the call. It returns the Go pair
`(*ecdsa.Signature, error)`. -/
structure SigningWorld (Signer PublicKey Provider Signature Context : Type) where
  /-- Entry names of a directory, from `ioutil.ReadDir`. -/
  readDir : String → Except String (List String)
  /-- Contents of a file, from `ioutil.ReadFile`. -/
  readFile : String → Except String Bytes
  /-- Deserialisation of a key share, `signer.Unmarshal`. -/
  unmarshal : Bytes → Except String Signer
  /-- Public key of the operator, `signer.MemberID().PublicKey()`. -/
  publicKey : Signer → Except String PublicKey
  /-- Network provider of a key, `local.ConnectWithKey(&key.NetworkPublic(k))`. -/
  connectWithKey : PublicKey → Provider
  /-- Context with a timeout in nanoseconds, of `context.WithTimeout`. -/
  withTimeout : Nat → Context
  /-- Threshold signing, `signers[i].CalculateSignature(ctx, digest, provider)`. -/
  calculateSignature :
    Nat → Signer → Context → Bytes → Provider → Option Signature × Option String
  /-- Rendering of a signature pointer by the verb `%+v`. -/
  showSignature : Option Signature → String

/-- The struct `signingOutcome` declared in `SignDigest`. -/
structure signingOutcome (Signature : Type) where
  signerIndex : Nat
  signature : Option Signature
  err : Option String
deriving DecidableEq, Repr

/-- One line written by the logger. -/
inductive LogLine where
  | errorf (msg : String)
  | infof (msg : String)
deriving DecidableEq, Repr

/-- One invocation of `CalculateSignature`, with the task that made it. -/
structure SigningCall (Signer Provider Context : Type) where
  signerIndex : Nat
  signer : Signer
  ctx : Context
  digest : Bytes
  provider : Provider
deriving DecidableEq, Repr

/-- How far a command got: it returned (with an error or with `nil`), it stopped with a
runtime fault, or it is still blocked. -/
inductive Status where
  | returned (err : Option String)
  | faulted (msg : String)
  | blocked
deriving DecidableEq, Repr

/-- What one execution of `SignDigest` did. -/
structure SigningRun (Signer Provider Signature Context : Type) where
  status : Status
  /-- Invocations of `CalculateSignature`, in order. -/
  calls : List (SigningCall Signer Provider Context)
  /-- Outcomes sent on `signingOutcomesChannel`, in order. -/
  sent : List (signingOutcome Signature)
  /-- Outcomes received by the final loop, in order. -/
  outcomes : List (signingOutcome Signature)
  log : List LogLine

/-- The duration `1*time.Minute`, in nanoseconds. -/
def oneMinute : Nat := 60 * 1000000000

section Signing

variable {Signer PublicKey Provider Signature Context : Type}

/-- The loading loop of `SignDigest`: every entry is read, deserialised and given a
network provider for its own public key; the first failure ends the command. -/
def loadKeyShares (x : SigningWorld Signer PublicKey Provider Signature Context)
    (keySharesDir : String) : List String → Except String (List Signer × List Provider)
  | [] => .ok ([], [])
  | name :: rest =>
    match x.readFile (keySharesDir ++ "/" ++ name) with
    | .error e => .error ("could not read key share file [" ++ name ++ "]: [" ++ e ++ "]")
    | .ok keyShareBytes =>
      match x.unmarshal keyShareBytes with
      | .error e =>
        .error ("could not unmarshal signer from file [" ++ name ++ "]: [" ++ e ++ "]")
      | .ok signer =>
        match x.publicKey signer with
        | .error e => .error ("could not get operator public key: [" ++ e ++ "]")
        | .ok operatorPublicKey =>
          match loadKeyShares x keySharesDir rest with
          | .error e => .error e
          | .ok (signers, networkProviders) =>
            .ok (signer :: signers, x.connectWithKey operatorPublicKey :: networkProviders)

/-- The state shared by the signing tasks and the command that waits for them. -/
structure FanOut (Signer Provider Signature Context : Type) where
  /-- Counter of `waitGroup`. -/
  counter : Nat
  /-- Capacity of `signingOutcomesChannel`. -/
  capacity : Nat
  /-- Tasks started and not finished. -/
  running : List Nat
  /-- Contents of `signingOutcomesChannel`, oldest first. -/
  channel : List (signingOutcome Signature)
  calls : List (SigningCall Signer Provider Context)

/-- The state after `waitGroup.Add(n)`, `make(chan *signingOutcome, n)` and the loop
that starts one task for each index below `n`. -/
def launch (n : Nat) : FanOut Signer Provider Signature Context :=
  { counter := n, capacity := n, running := List.range n, channel := [], calls := [] }

/-- One task runs to its end: it calls `CalculateSignature` on its own signer and
provider, sends the outcome tagged with its index, and signals the wait group. A task
that is not running does nothing; a send on a full channel would not proceed. -/
def runTask (x : SigningWorld Signer PublicKey Provider Signature Context)
    (signers : List Signer) (networkProviders : List Provider) (ctx : Context)
    (digestBytes : Bytes) (st : FanOut Signer Provider Signature Context)
    (signerIndex : Nat) : FanOut Signer Provider Signature Context :=
  if signerIndex ∈ st.running then
    match signers[signerIndex]?, networkProviders[signerIndex]? with
    | some signer, some provider =>
      if st.channel.length < st.capacity then
        let result := x.calculateSignature signerIndex signer ctx digestBytes provider
        { counter := st.counter - 1
          capacity := st.capacity
          running := st.running.erase signerIndex
          channel := st.channel ++ [⟨signerIndex, result.1, result.2⟩]
          calls := st.calls ++ [⟨signerIndex, signer, ctx, digestBytes, provider⟩] }
      else st
    | _, _ => st
  else st

/-- The final loop of `SignDigest`: one log line for each outcome, an error line when
the error is set and a signature line otherwise. -/
def report (x : SigningWorld Signer PublicKey Provider Signature Context) :
    List (signingOutcome Signature) → List LogLine
  | [] => []
  | o :: rest =>
    (match o.err with
      | some e => LogLine.errorf ("[signer:" ++ toString o.signerIndex ++ "] error: [" ++ e ++ "]")
      | none =>
        LogLine.infof
          ("[signer:" ++ toString o.signerIndex ++ "] signature: ["
            ++ x.showSignature o.signature ++ "]")) :: report x rest

/-- A run of `SignDigest` that returns the error `msg` before any task is started. -/
def aborted (msg : String) : SigningRun Signer Provider Signature Context :=
  { status := .returned (some msg), calls := [], sent := [], outcomes := [], log := [] }

/-- The command `SignDigest` on the flags `digest` and `key-shares-dir`. The tasks run
concurrently: `schedule` lists, in order, the tasks that the scheduler lets run to their
end. `waitGroup.Wait()` returns once the counter is zero; otherwise the command is
still blocked there. -/
def SignDigest (x : SigningWorld Signer PublicKey Provider Signature Context)
    (digest keySharesDir : String) (schedule : List Nat) :
    SigningRun Signer Provider Signature Context :=
  if digest.length = 0 then aborted "invalid digest"
  else if keySharesDir.length = 0 then aborted "invalid key shares directory name"
  else
    match x.readDir keySharesDir with
    | .error e => aborted ("could not read key shares directory: [" ++ e ++ "]")
    | .ok keySharesFiles =>
      match loadKeyShares x keySharesDir keySharesFiles with
      | .error e => aborted e
      | .ok (signers, networkProviders) =>
        match hexDecodeString digest with
        | .error e => aborted ("could not decode digest string: [" ++ e ++ "]")
        | .ok digestBytes =>
          let ctx := x.withTimeout oneMinute
          let st := schedule.foldl (runTask x signers networkProviders ctx digestBytes)
            (launch signers.length)
          if st.counter = 0 then
            { status := .returned none
              calls := st.calls
              sent := st.channel
              outcomes := st.channel
              log := report x st.channel ++ [LogLine.infof "signing completed"] }
          else
            { status := .blocked, calls := st.calls, sent := st.channel, outcomes := [],
              log := [] }

end Signing

section SigningFacts

variable {Signer PublicKey Provider Signature Context : Type}

/-- The outcome that the task of index `k` sends, if it has a signer and a provider. -/
def outcomeOf (x : SigningWorld Signer PublicKey Provider Signature Context)
    (signers : List Signer) (networkProviders : List Provider) (ctx : Context)
    (digestBytes : Bytes) (k : Nat) : Option (signingOutcome Signature) :=
  match signers[k]?, networkProviders[k]? with
  | some signer, some provider =>
    some ⟨k, (x.calculateSignature k signer ctx digestBytes provider).1,
      (x.calculateSignature k signer ctx digestBytes provider).2⟩
  | _, _ => none

/-- The invocation that the task of index `k` makes, if it has a signer and a provider. -/
def callOf (signers : List Signer) (networkProviders : List Provider) (ctx : Context)
    (digestBytes : Bytes) (k : Nat) : Option (SigningCall Signer Provider Context) :=
  match signers[k]?, networkProviders[k]? with
  | some signer, some provider => some ⟨k, signer, ctx, digestBytes, provider⟩
  | _, _ => none

/-- The shared state when the scheduler has let the tasks of `schedule` run. -/
def fanOut (x : SigningWorld Signer PublicKey Provider Signature Context)
    (signers : List Signer) (networkProviders : List Provider) (digestBytes : Bytes)
    (schedule : List Nat) : FanOut Signer Provider Signature Context :=
  schedule.foldl (runTask x signers networkProviders (x.withTimeout oneMinute) digestBytes)
    (launch signers.length)

/-- Modelled from the spec: the capability
`CalculateSignature(context, digest, channel) -> Signature | Error` of the package `tss`,
whose code is not part of `cmd/signing.go`, yields a signature or an error, never both
and never neither. -/
def SignatureOrError (x : SigningWorld Signer PublicKey Provider Signature Context) : Prop :=
  ∀ (k : Nat) (signer : Signer) (ctx : Context) (digestBytes : Bytes) (provider : Provider),
    (x.calculateSignature k signer ctx digestBytes provider).1.isSome = true ↔
      (x.calculateSignature k signer ctx digestBytes provider).2 = none

/-- A key share file that `SignDigest` cannot load: it cannot be read, or its contents
cannot be deserialised, or the signer has no public key. -/
def Corrupt (x : SigningWorld Signer PublicKey Provider Signature Context)
    (keySharesDir name : String) : Prop :=
  match x.readFile (keySharesDir ++ "/" ++ name) with
  | .error _ => True
  | .ok keyShareBytes =>
    match x.unmarshal keyShareBytes with
    | .error _ => True
    | .ok signer =>
      match x.publicKey signer with
      | .error _ => True
      | .ok _ => False

/-- What holds of the shared state at every moment after the tasks are started. -/
structure Joining (x : SigningWorld Signer PublicKey Provider Signature Context)
    (signers : List Signer) (networkProviders : List Provider) (ctx : Context)
    (digestBytes : Bytes) (st : FanOut Signer Provider Signature Context) : Prop where
  capacity_eq : st.capacity = signers.length
  counter_eq : st.counter = st.running.length
  perm : (st.channel.map (fun o => o.signerIndex) ++ st.running).Perm
    (List.range signers.length)
  outcome_eq : ∀ o ∈ st.channel,
    outcomeOf x signers networkProviders ctx digestBytes o.signerIndex = some o
  calls_index : st.calls.map (fun c => c.signerIndex) = st.channel.map (fun o => o.signerIndex)
  call_eq : ∀ c ∈ st.calls,
    callOf signers networkProviders ctx digestBytes c.signerIndex = some c

end SigningFacts

/-! ## `DecryptKeyShare` -/

/-- The fields of the operator configuration that `DecryptKeyShare` reads. -/
structure Config where
  /-- Field `Ethereum.Account.KeyFile`. -/
  keyFile : String
  /-- Field `Ethereum.Account.KeyFilePassword`. -/
  keyFilePassword : String
  /-- Field `Storage.DataDir`. -/
  dataDir : String
deriving DecidableEq, Repr

/-- A file: its contents and its permission bits. -/
structure File where
  data : Bytes
  perm : Nat
deriving DecidableEq, Repr

/-- The files of the working directory, by path. -/
abbrev FileSystem := List (String × File)

/-- The error of `os.Stat`. -/
inductive StatError where
  | notExist
  | other (msg : String)
deriving DecidableEq, Repr

/-- The error returned by `os.Stat(path)`, `none` when the call succeeds: a fault of the
system if there is one, and otherwise "does not exist" exactly when no file is there. -/
def osStat (fs : FileSystem) (statFault : String → Option String) (path : String) :
    Option StatError :=
  match statFault path with
  | some e => some (.other e)
  | none =>
    match fs.lookup path with
    | some _ => none
    | none => some .notExist

/-- The test `os.IsNotExist(err)`. -/
def isNotExist : Option StatError → Bool
  | some .notExist => true
  | _ => false

/-- The files after a write of `data` at `path`: a file that is there is truncated and
keeps its permissions, a file that is not there is created with `perm`. -/
def store : FileSystem → String → Bytes → Nat → FileSystem
  | [], path, data, perm => [(path, ⟨data, perm⟩)]
  | (q, f) :: rest, path, data, perm =>
    if q = path then (q, ⟨data, f.perm⟩) :: rest else (q, f) :: store rest path data perm

/-- The call `ioutil.WriteFile(path, data, perm)`: it fails on a fault of the system and
otherwise stores the data. -/
def writeFile (fs : FileSystem) (writeFault : String → Option String) (path : String)
    (data : Bytes) (perm : Nat) : Except String FileSystem :=
  match writeFault path with
  | some e => .error e
  | none => .ok (store fs path data perm)

/-- The verb `%.Ns` of `fmt`: at most `n` characters of the text. -/
def precision (n : Nat) (s : String) : String :=
  String.mk (s.toList.take n)

/-- The value of `fmt.Sprintf("key_share_%.10s_%.10s", keepAddress, operatorAddress)`. -/
def targetFilePath (keepAddress operatorAddress : String) : String :=
  "key_share_" ++ precision 10 keepAddress ++ "_" ++ precision 10 operatorAddress

/-- The permission bits `0444` (read-only). -/
def readOnly : Nat := 0o444

/-- The collaborators of `DecryptKeyShare`. -/
structure ExportWorld (Address Handle Signer : Type) where
  /-- Operator configuration read from a path, `config.ReadConfig`. -/
  readConfig : String → Except String Config
  /-- Address of the decrypted key file, `ethutil.DecryptKeyFile(file, password)`. -/
  decryptKeyFile : String → String → Except String Address
  /-- The test `common.IsHexAddress`. -/
  isHexAddress : String → Bool
  /-- The conversion `common.HexToAddress`. -/
  hexToAddress : String → Address
  /-- The text of an address, `Address.String()`. -/
  addressString : Address → String
  /-- The disk handle of a data directory, `persistence.NewDiskHandle`. -/
  newDiskHandle : String → Except String Handle
  /-- The signers of a keep in the registry built over the encrypted persistence of a
  handle and a password, after `LoadExistingKeeps`: `keepRegistry.GetSigners`. -/
  getSigners : Handle → String → Address → Except String (List Signer)
  /-- Serialisation of a signer, `signer.Marshal()`. -/
  marshal : Signer → Except String Bytes
  /-- Faults of `os.Stat` other than "does not exist", by path. -/
  statFault : String → Option String
  /-- Faults of `ioutil.WriteFile`, by path. -/
  writeFault : String → Option String

/-- What one execution of `DecryptKeyShare` did. -/
structure ExportRun where
  status : Status
  /-- The files when the command ends. -/
  fs : FileSystem
  /-- The value of `targetFilePath`, once computed. -/
  target : Option String
  /-- Paths passed to `ioutil.WriteFile`, in order. -/
  writes : List String
  log : List LogLine
deriving DecidableEq, Repr

section Export

variable {Address Handle Signer : Type}

/-- A run of `DecryptKeyShare` that returns the error `msg` without a write. -/
def refused (fs : FileSystem) (target : Option String) (msg : String) : ExportRun :=
  { status := .returned (some msg), fs := fs, target := target, writes := [], log := [] }

/-- The command `DecryptKeyShare` on the global flag `config` and the positional
arguments `args`, started on the files `fs`. -/
def DecryptKeyShare (x : ExportWorld Address Handle Signer) (configPath : String)
    (args : List String) (fs : FileSystem) : ExportRun :=
  match x.readConfig configPath with
  | .error e => refused fs none ("failed while reading config file: [" ++ e ++ "]")
  | .ok config =>
    match x.decryptKeyFile config.keyFile config.keyFilePassword with
    | .error e => refused fs none ("failed to decrypt key file: [" ++ e ++ "]")
    | .ok keyFileAddress =>
      let keepAddressHex := args.headD ""
      if !x.isHexAddress keepAddressHex then refused fs none "invalid keep address"
      else
        let keepAddress := x.hexToAddress keepAddressHex
        match x.newDiskHandle config.dataDir with
        | .error e =>
          refused fs none ("failed while creating a storage disk handler: [" ++ e ++ "]")
        | .ok handle =>
          match x.getSigners handle config.keyFilePassword keepAddress with
          | .error e =>
            refused fs none
              ("no signers for keep [" ++ x.addressString keepAddress ++ "]: [" ++ e ++ "]")
          | .ok signers =>
            match signers with
            | [] =>
              { status := .faulted "runtime error: index out of range [0] with length 0"
                fs := fs, target := none, writes := [], log := [] }
            | signer :: _ =>
              match x.marshal signer with
              | .error e =>
                refused fs none
                  ("failed to marshall signer for keep [" ++ x.addressString keepAddress
                    ++ "]: [" ++ e ++ "]")
              | .ok signerBytes =>
                let targetFilePath :=
                  targetFilePath (x.addressString keepAddress) (x.addressString keyFileAddress)
                if !isNotExist (osStat fs x.statFault targetFilePath) then
                  refused fs (some targetFilePath)
                    ("could not write shares to file; file [" ++ targetFilePath
                      ++ "] already exists")
                else
                  match writeFile fs x.writeFault targetFilePath signerBytes readOnly with
                  | .error e =>
                    { status := .returned
                        (some ("failed to write to file [" ++ targetFilePath ++ "]: [" ++ e ++ "]"))
                      fs := fs, target := some targetFilePath, writes := [targetFilePath]
                      log := [] }
                  | .ok fs1 =>
                    { status := .returned none
                      fs := fs1, target := some targetFilePath, writes := [targetFilePath]
                      log := [LogLine.infof
                        ("key share has been decrypted successfully and written to file ["
                          ++ targetFilePath ++ "]")] }

end Export

/-! ## Sample collaborators -/

/-- A directory `shares` of three key shares `a`, `b`, `c`, and a directory `mixed` with
the same shares and a file `bad` that holds no key share. The signer of index 1 fails to
sign. -/
def sampleWorld : SigningWorld Nat Nat Nat Nat Nat :=
  { readDir := fun d =>
      if d = "shares" then .ok ["a", "b", "c"]
      else if d = "mixed" then .ok ["a", "bad", "c"]
      else .error "no such file or directory"
    readFile := fun f =>
      if f = "shares/a" ∨ f = "mixed/a" then .ok [1]
      else if f = "shares/b" then .ok [2]
      else if f = "shares/c" ∨ f = "mixed/c" then .ok [3]
      else if f = "mixed/bad" then .ok []
      else .error "no such file or directory"
    unmarshal := fun b =>
      match b with
      | [n] => .ok n
      | _ => .error "unexpected end of input"
    publicKey := fun s => .ok (s + 100)
    connectWithKey := fun k => k + 1000
    withTimeout := fun d => d
    calculateSignature := fun i s _ d p =>
      if i = 1 then (none, some "signing failed") else (some (s + p + d.length), none)
    showSignature := fun s =>
      match s with
      | some n => toString n
      | none => "<nil>" }

/-- The collaborators of `sampleWorld`, with signers that all fail to sign. -/
def failingWorld : SigningWorld Nat Nat Nat Nat Nat :=
  { sampleWorld with
    calculateSignature := fun _ _ _ _ _ => (none, some "context deadline exceeded") }

/-- An operator whose registry holds one signer for the keep `0x5aAe...` and an entry
without signers for the keep `0x0000...`. Addresses are carried by their text. -/
def sampleExportWorld : ExportWorld String String Nat :=
  { readConfig := fun f =>
      if f = "config.toml" then .ok ⟨"keyfile.json", "password", "/data"⟩
      else .error "no such file or directory"
    decryptKeyFile := fun f pw =>
      if f = "keyfile.json" ∧ pw = "password" then
        .ok "0xfB6916095ca1df60bB79Ce92cE3Ea74c37c5d359"
      else .error "could not decrypt key with given passphrase"
    isHexAddress := fun a => decide (a.length = 42)
    hexToAddress := fun a => a
    addressString := fun a => a
    newDiskHandle := fun d => .ok d
    getSigners := fun _ _ a =>
      if a = "0x5aAeb6053F3E94C9b9A09f33669435E7Ef1BeAed" then .ok [7]
      else if a = "0x0000000000000000000000000000000000000000" then .ok []
      else .error "could not find signers for keep"
    marshal := fun s => .ok [s]
    statFault := fun _ => none
    writeFault := fun _ => none }

/-- A working directory that already holds an exported key share. -/
def sampleFiles : FileSystem :=
  [("notes.txt", ⟨[104, 105], 0o644⟩), ("key_share_0x5aAeb605_0xfB691609", ⟨[9], 0o444⟩)]

/-! ## Facts about `encoding/hex` -/

theorem length_zero_iff_empty (s : String) : s.length = 0 ↔ s = "" := by
  cases s with
  | mk data =>
    constructor
    · intro h
      have : data = [] := List.length_eq_zero.mp h
      subst this
      rfl
    · intro h
      rw [h]
      rfl

theorem hexDecode_ok_iff : ∀ (n : Nat) (cs : List Char), cs.length ≤ n →
    ((∃ bytes, hexDecode cs = .ok bytes) ↔
      cs.length % 2 = 0 ∧ ∀ c ∈ cs, fromHexChar c ≠ none) := by
  intro n
  induction n with
  | zero =>
    intro cs h
    have : cs = [] := List.length_eq_zero.mp (Nat.le_zero.mp h)
    subst this
    simp [hexDecode]
  | succ n ih =>
    intro cs h
    match cs, h with
    | [], _ => simp [hexDecode]
    | [a], _ =>
      cases ha : fromHexChar a <;> simp [hexDecode, ha]
    | a :: b :: rest, h =>
      have hrest : rest.length ≤ n := by
        simp only [List.length_cons] at h
        omega
      have ih' := ih rest hrest
      cases ha : fromHexChar a with
      | none => simp [hexDecode, ha]
      | some hi =>
        cases hb : fromHexChar b with
        | none => simp [hexDecode, ha, hb]
        | some lo =>
          cases hr : hexDecode rest with
          | error e =>
            have hno : ¬ ∃ bytes, hexDecode rest = .ok bytes := by
              rw [hr]
              simp
            have hno' := mt ih'.mpr hno
            simp only [hexDecode, ha, hb, hr, List.length_cons, List.mem_cons]
            constructor
            · rintro ⟨bytes, hbytes⟩
              cases hbytes
            · rintro ⟨hlen, hall⟩
              exfalso
              apply hno'
              refine ⟨by omega, fun c hc => hall c (Or.inr (Or.inr hc))⟩
          | ok bytes =>
            have hyes := ih'.mp ⟨bytes, hr⟩
            simp only [hexDecode, ha, hb, hr, List.length_cons, List.mem_cons]
            constructor
            · intro _
              refine ⟨by omega, ?_⟩
              intro c hc
              rcases hc with rfl | rfl | hc
              · simp [ha]
              · simp [hb]
              · exact hyes.2 c hc
            · intro _
              exact ⟨_, rfl⟩

/-- The strings that `hex.DecodeString` accepts are those of even length made of
hexadecimal digits only. -/
theorem hexDecodeString_ok_iff (s : String) :
    (∃ bytes, hexDecodeString s = .ok bytes) ↔
      s.length % 2 = 0 ∧ ∀ c ∈ s.toList, fromHexChar c ≠ none :=
  hexDecode_ok_iff s.toList.length s.toList (Nat.le_refl _)

/-! ## Facts about the loading loop -/

section SigningProofs

variable {Signer PublicKey Provider Signature Context : Type}

theorem loadKeyShares_ok (x : SigningWorld Signer PublicKey Provider Signature Context)
    (dir : String) : ∀ (files : List String) (signers : List Signer)
    (providers : List Provider), loadKeyShares x dir files = .ok (signers, providers) →
    signers.length = files.length ∧ providers.length = files.length ∧
    ∀ j, j < files.length → ∃ name keyShareBytes signer operatorPublicKey,
      files[j]? = some name ∧
      x.readFile (dir ++ "/" ++ name) = .ok keyShareBytes ∧
      x.unmarshal keyShareBytes = .ok signer ∧
      x.publicKey signer = .ok operatorPublicKey ∧
      signers[j]? = some signer ∧
      providers[j]? = some (x.connectWithKey operatorPublicKey) := by
  intro files
  induction files with
  | nil =>
    intro signers providers h
    simp only [loadKeyShares, Except.ok.injEq, Prod.mk.injEq] at h
    obtain ⟨rfl, rfl⟩ := h
    simp
  | cons name rest ih =>
    intro signers providers h
    simp only [loadKeyShares] at h
    cases hread : x.readFile (dir ++ "/" ++ name) with
    | error e => simp [hread] at h
    | ok keyShareBytes =>
      cases hun : x.unmarshal keyShareBytes with
      | error e => simp [hread, hun] at h
      | ok signer =>
        cases hpk : x.publicKey signer with
        | error e => simp [hread, hun, hpk] at h
        | ok operatorPublicKey =>
          cases hrest : loadKeyShares x dir rest with
          | error e => simp [hread, hun, hpk, hrest] at h
          | ok pair =>
            obtain ⟨ss, ps⟩ := pair
            simp only [hread, hun, hpk, hrest, Except.ok.injEq, Prod.mk.injEq] at h
            obtain ⟨rfl, rfl⟩ := h
            obtain ⟨h1, h2, h3⟩ := ih ss ps hrest
            refine ⟨by simp [h1], by simp [h2], ?_⟩
            intro j hj
            cases j with
            | zero =>
              exact ⟨name, keyShareBytes, signer, operatorPublicKey, by simp, hread, hun, hpk,
                by simp, by simp⟩
            | succ j =>
              have hj' : j < rest.length := by
                simp only [List.length_cons] at hj
                omega
              obtain ⟨n, b, sg, pk, e1, e2, e3, e4, e5, e6⟩ := h3 j hj'
              exact ⟨n, b, sg, pk, by simpa using e1, e2, e3, e4, by simpa using e5,
                by simpa using e6⟩

theorem loadKeyShares_corrupt (x : SigningWorld Signer PublicKey Provider Signature Context)
    (dir : String) (files : List String) (name : String) (hname : name ∈ files)
    (hbad : Corrupt x dir name) : ∃ e, loadKeyShares x dir files = .error e := by
  cases hload : loadKeyShares x dir files with
  | error e => exact ⟨e, rfl⟩
  | ok pair =>
    exfalso
    obtain ⟨ss, ps⟩ := pair
    obtain ⟨_, _, h3⟩ := loadKeyShares_ok x dir files ss ps hload
    obtain ⟨j, hj, hjname⟩ := List.getElem_of_mem hname
    obtain ⟨n, b, sg, pk, e1, e2, e3, e4, _, _⟩ := h3 j hj
    have hn : n = name := by
      rw [List.getElem?_eq_getElem hj] at e1
      rw [← hjname]
      exact (Option.some.inj e1).symm
    subst hn
    simp [Corrupt, e2, e3, e4] at hbad

/-! ## Facts about the signing tasks -/

theorem launch_joining (x : SigningWorld Signer PublicKey Provider Signature Context)
    (signers : List Signer) (providers : List Provider) (ctx : Context) (d : Bytes) :
    Joining x signers providers ctx d (launch signers.length) where
  capacity_eq := rfl
  counter_eq := by simp [launch]
  perm := by simp [launch]
  outcome_eq := by simp [launch]
  calls_index := by simp [launch]
  call_eq := by simp [launch]

theorem runTask_joining (x : SigningWorld Signer PublicKey Provider Signature Context)
    (signers : List Signer) (providers : List Provider) (ctx : Context) (d : Bytes)
    (st : FanOut Signer Provider Signature Context)
    (h : Joining x signers providers ctx d st) (k : Nat) :
    Joining x signers providers ctx d (runTask x signers providers ctx d st k) := by
  unfold runTask
  by_cases hk : k ∈ st.running
  · rw [if_pos hk]
    cases hs : signers[k]? with
    | none => simpa using h
    | some signer =>
      cases hp : providers[k]? with
      | none => simpa using h
      | some provider =>
        by_cases hc : st.channel.length < st.capacity
        · simp only [if_pos hc]
          refine ⟨h.capacity_eq, ?_, ?_, ?_, ?_, ?_⟩
          · simp only [List.length_erase_of_mem hk, h.counter_eq]
          · simp only [List.map_append, List.map_cons, List.map_nil, List.append_assoc,
              List.singleton_append]
            refine List.Perm.trans ?_ h.perm
            exact List.Perm.append_left _ (List.perm_cons_erase hk).symm
          · intro o ho
            rcases List.mem_append.mp ho with ho | ho
            · exact h.outcome_eq o ho
            · rw [List.mem_singleton] at ho
              subst ho
              simp [outcomeOf, hs, hp]
          · simp [h.calls_index]
          · intro c hcall
            rcases List.mem_append.mp hcall with hcall | hcall
            · exact h.call_eq c hcall
            · rw [List.mem_singleton] at hcall
              subst hcall
              simp [callOf, hs, hp]
        · simpa only [if_neg hc] using h
  · rw [if_neg hk]
    exact h

theorem runTask_running_subset (x : SigningWorld Signer PublicKey Provider Signature Context)
    (signers : List Signer) (providers : List Provider) (ctx : Context) (d : Bytes)
    (st : FanOut Signer Provider Signature Context) (k : Nat) :
    (runTask x signers providers ctx d st k).running ⊆ st.running := by
  unfold runTask
  by_cases hk : k ∈ st.running
  · rw [if_pos hk]
    cases hs : signers[k]? with
    | none => exact List.Subset.refl _
    | some signer =>
      cases hp : providers[k]? with
      | none => exact List.Subset.refl _
      | some provider =>
        by_cases hc : st.channel.length < st.capacity
        · simp only [if_pos hc]
          exact List.erase_subset _ _
        · simp only [if_neg hc]
          exact List.Subset.refl _
  · rw [if_neg hk]
    exact List.Subset.refl _

theorem runTask_not_running (x : SigningWorld Signer PublicKey Provider Signature Context)
    (signers : List Signer) (providers : List Provider) (ctx : Context) (d : Bytes)
    (hlen : providers.length = signers.length)
    (st : FanOut Signer Provider Signature Context)
    (h : Joining x signers providers ctx d st) (k : Nat) :
    k ∉ (runTask x signers providers ctx d st k).running := by
  by_cases hk : k ∈ st.running
  · have hnodup : st.running.Nodup := by
      have := (List.Perm.nodup_iff h.perm).mpr (List.nodup_range _)
      exact (List.nodup_append.mp this).2.1
    have hlt : k < signers.length := by
      have : k ∈ List.range signers.length :=
        h.perm.subset (List.mem_append_right _ hk)
      exact List.mem_range.mp this
    have hroom : st.channel.length < st.capacity := by
      have hl := h.perm.length_eq
      simp only [List.length_append, List.length_map, List.length_range] at hl
      have hpos : 0 < st.running.length := List.length_pos_of_mem hk
      rw [h.capacity_eq]
      omega
    obtain ⟨signer, hs⟩ : ∃ signer, signers[k]? = some signer :=
      ⟨_, List.getElem?_eq_getElem hlt⟩
    obtain ⟨provider, hp⟩ : ∃ provider, providers[k]? = some provider :=
      ⟨_, List.getElem?_eq_getElem (hlen ▸ hlt)⟩
    unfold runTask
    simp only [if_pos hk, hs, hp, if_pos hroom]
    intro hmem
    exact (List.Nodup.mem_erase_iff hnodup).mp hmem |>.1 rfl
  · unfold runTask
    rw [if_neg hk]
    exact hk

theorem fold_joining (x : SigningWorld Signer PublicKey Provider Signature Context)
    (signers : List Signer) (providers : List Provider) (ctx : Context) (d : Bytes) :
    ∀ (schedule : List Nat) (st : FanOut Signer Provider Signature Context),
      Joining x signers providers ctx d st →
      Joining x signers providers ctx d
        (schedule.foldl (runTask x signers providers ctx d) st) := by
  intro schedule
  induction schedule with
  | nil => intro st h; exact h
  | cons k rest ih =>
    intro st h
    exact ih _ (runTask_joining x signers providers ctx d st h k)

theorem fold_running_subset (x : SigningWorld Signer PublicKey Provider Signature Context)
    (signers : List Signer) (providers : List Provider) (ctx : Context) (d : Bytes) :
    ∀ (schedule : List Nat) (st : FanOut Signer Provider Signature Context),
      (schedule.foldl (runTask x signers providers ctx d) st).running ⊆ st.running := by
  intro schedule
  induction schedule with
  | nil => intro st; exact List.Subset.refl _
  | cons k rest ih =>
    intro st
    exact List.Subset.trans (ih _) (runTask_running_subset x signers providers ctx d st k)

theorem fold_not_running (x : SigningWorld Signer PublicKey Provider Signature Context)
    (signers : List Signer) (providers : List Provider) (ctx : Context) (d : Bytes)
    (hlen : providers.length = signers.length) :
    ∀ (schedule : List Nat) (st : FanOut Signer Provider Signature Context),
      Joining x signers providers ctx d st → ∀ k ∈ schedule,
      k ∉ (schedule.foldl (runTask x signers providers ctx d) st).running := by
  intro schedule
  induction schedule with
  | nil => intro st _ k hk; cases hk
  | cons a rest ih =>
    intro st h k hk
    rcases List.mem_cons.mp hk with rfl | hk
    · intro hmem
      exact runTask_not_running x signers providers ctx d hlen st h k
        (fold_running_subset x signers providers ctx d rest _ hmem)
    · exact ih _ (runTask_joining x signers providers ctx d st h a) k hk

theorem fanOut_joining (x : SigningWorld Signer PublicKey Provider Signature Context)
    (signers : List Signer) (providers : List Provider) (d : Bytes) (schedule : List Nat) :
    Joining x signers providers (x.withTimeout oneMinute) d
      (fanOut x signers providers d schedule) :=
  fold_joining x signers providers _ d schedule _ (launch_joining x signers providers _ d)

/-- Once every task has been let run, the counter of the wait group is zero. -/
theorem fanOut_counter_zero (x : SigningWorld Signer PublicKey Provider Signature Context)
    (signers : List Signer) (providers : List Provider) (d : Bytes) (schedule : List Nat)
    (hlen : providers.length = signers.length)
    (hall : ∀ i, i < signers.length → i ∈ schedule) :
    (fanOut x signers providers d schedule).counter = 0 := by
  have hj := fanOut_joining x signers providers d schedule
  rw [hj.counter_eq, List.length_eq_zero, List.eq_nil_iff_forall_not_mem]
  intro k hk
  have hlt : k < signers.length :=
    List.mem_range.mp (hj.perm.subset (List.mem_append_right _ hk))
  exact fold_not_running x signers providers _ d hlen schedule _
    (launch_joining x signers providers _ d) k (hall k hlt) hk

/-- When the counter of the wait group is zero, the channel holds one outcome for each
index. -/
theorem joined_perm (x : SigningWorld Signer PublicKey Provider Signature Context)
    (signers : List Signer) (providers : List Provider) (ctx : Context) (d : Bytes)
    (st : FanOut Signer Provider Signature Context)
    (h : Joining x signers providers ctx d st) (h0 : st.counter = 0) :
    (st.channel.map (fun o => o.signerIndex)).Perm (List.range signers.length) := by
  have hr : st.running = [] := List.length_eq_zero.mp (h.counter_eq ▸ h0)
  have := h.perm
  rwa [hr, List.append_nil] at this

theorem filter_index_singleton {α : Type} (key : α → Nat) :
    ∀ (l : List α), (l.map key).Nodup → ∀ a ∈ l,
      l.filter (fun o => decide (key o = key a)) = [a] := by
  intro l
  induction l with
  | nil => intro _ a ha; cases ha
  | cons b t ih =>
    intro hnd a ha
    rw [List.map_cons, List.nodup_cons] at hnd
    obtain ⟨hb, ht⟩ := hnd
    rcases List.mem_cons.mp ha with rfl | ha
    · have hnone : t.filter (fun o => decide (key o = key a)) = [] := by
        rw [List.filter_eq_nil_iff]
        intro o ho hkey
        apply hb
        have : key o = key a := by simpa using hkey
        rw [← this]
        exact List.mem_map_of_mem key ho
      simp [List.filter_cons, hnone]
    · have hne : key b ≠ key a := by
        intro hkey
        apply hb
        rw [hkey]
        exact List.mem_map_of_mem key ha
      simp [List.filter_cons, hne, ih ht a ha]

theorem report_length (x : SigningWorld Signer PublicKey Provider Signature Context) :
    ∀ (l : List (signingOutcome Signature)), (report x l).length = l.length := by
  intro l
  induction l with
  | nil => rfl
  | cons o t ih => simp [report, ih]

theorem report_signature (x : SigningWorld Signer PublicKey Provider Signature Context) :
    ∀ (l : List (signingOutcome Signature)) (o : signingOutcome Signature), o ∈ l →
      o.err = none →
      LogLine.infof ("[signer:" ++ toString o.signerIndex ++ "] signature: ["
        ++ x.showSignature o.signature ++ "]") ∈ report x l := by
  intro l
  induction l with
  | nil => intro o ho; cases ho
  | cons b t ih =>
    intro o ho herr
    rcases List.mem_cons.mp ho with rfl | ho
    · simp [report, herr]
    · simp only [report, List.mem_cons]
      exact Or.inr (ih o ho herr)

theorem report_error (x : SigningWorld Signer PublicKey Provider Signature Context) :
    ∀ (l : List (signingOutcome Signature)) (o : signingOutcome Signature), o ∈ l →
      ∀ e, o.err = some e →
      LogLine.errorf ("[signer:" ++ toString o.signerIndex ++ "] error: [" ++ e ++ "]")
        ∈ report x l := by
  intro l
  induction l with
  | nil => intro o ho; cases ho
  | cons b t ih =>
    intro o ho e herr
    rcases List.mem_cons.mp ho with rfl | ho
    · simp [report, herr]
    · simp only [report, List.mem_cons]
      exact Or.inr (ih o ho e herr)

/-- A running task that is let run sends its outcome and leaves the running tasks. -/
theorem runTask_proceeds (x : SigningWorld Signer PublicKey Provider Signature Context)
    (signers : List Signer) (providers : List Provider) (ctx : Context) (d : Bytes)
    (hlen : providers.length = signers.length)
    (st : FanOut Signer Provider Signature Context)
    (h : Joining x signers providers ctx d st) (k : Nat) (hk : k ∈ st.running) :
    ((runTask x signers providers ctx d st k).channel.map (fun o => o.signerIndex)
      = st.channel.map (fun o => o.signerIndex) ++ [k]) ∧
    (runTask x signers providers ctx d st k).running = st.running.erase k := by
  have hlt : k < signers.length :=
    List.mem_range.mp (h.perm.subset (List.mem_append_right _ hk))
  have hroom : st.channel.length < st.capacity := by
    have hl := h.perm.length_eq
    simp only [List.length_append, List.length_map, List.length_range] at hl
    have hpos : 0 < st.running.length := List.length_pos_of_mem hk
    rw [h.capacity_eq]
    omega
  obtain ⟨signer, hs⟩ : ∃ signer, signers[k]? = some signer :=
    ⟨_, List.getElem?_eq_getElem hlt⟩
  obtain ⟨provider, hp⟩ : ∃ provider, providers[k]? = some provider :=
    ⟨_, List.getElem?_eq_getElem (hlen ▸ hlt)⟩
  unfold runTask
  simp only [if_pos hk, hs, hp, if_pos hroom, List.map_append, List.map_cons, List.map_nil,
    and_self]

/-- The outcomes are in the channel in the order in which the tasks finished. -/
theorem fold_channel_order (x : SigningWorld Signer PublicKey Provider Signature Context)
    (signers : List Signer) (providers : List Provider) (ctx : Context) (d : Bytes)
    (hlen : providers.length = signers.length) :
    ∀ (schedule : List Nat) (st : FanOut Signer Provider Signature Context),
      Joining x signers providers ctx d st → schedule.Nodup →
      (∀ k ∈ schedule, k ∈ st.running) →
      (schedule.foldl (runTask x signers providers ctx d) st).channel.map
          (fun o => o.signerIndex)
        = st.channel.map (fun o => o.signerIndex) ++ schedule := by
  intro schedule
  induction schedule with
  | nil => intro st _ _ _; simp
  | cons a rest ih =>
    intro st h hnd hrun
    rw [List.nodup_cons] at hnd
    obtain ⟨ha, hrest⟩ := hnd
    have hstep := runTask_proceeds x signers providers ctx d hlen st h a
      (hrun a (List.mem_cons_self _ _))
    have hnodup : st.running.Nodup :=
      (List.nodup_append.mp ((List.Perm.nodup_iff h.perm).mpr (List.nodup_range _))).2.1
    rw [List.foldl_cons, ih _ (runTask_joining x signers providers ctx d st h a) hrest, hstep.1]
    · simp
    · intro k hk
      rw [hstep.2, List.Nodup.mem_erase_iff hnodup]
      exact ⟨fun hka => ha (hka ▸ hk), hrun k (List.mem_cons_of_mem _ hk)⟩

/-- The command past its checks: what `SignDigest` does once the directory is listed,
every key share is loaded and the digest is decoded. -/
theorem SignDigest_loaded (x : SigningWorld Signer PublicKey Provider Signature Context)
    (digest dir : String) (files : List String) (signers : List Signer)
    (providers : List Provider) (digestBytes : Bytes) (schedule : List Nat)
    (hdigest : digest ≠ "") (hname : dir ≠ "")
    (hdir : x.readDir dir = .ok files)
    (hload : loadKeyShares x dir files = .ok (signers, providers))
    (hhex : hexDecodeString digest = .ok digestBytes) :
    SignDigest x digest dir schedule =
      if (fanOut x signers providers digestBytes schedule).counter = 0 then
        { status := .returned none
          calls := (fanOut x signers providers digestBytes schedule).calls
          sent := (fanOut x signers providers digestBytes schedule).channel
          outcomes := (fanOut x signers providers digestBytes schedule).channel
          log := report x (fanOut x signers providers digestBytes schedule).channel
            ++ [LogLine.infof "signing completed"] }
      else
        { status := .blocked
          calls := (fanOut x signers providers digestBytes schedule).calls
          sent := (fanOut x signers providers digestBytes schedule).channel
          outcomes := []
          log := [] } := by
  have h1 : ¬ digest.length = 0 := fun h => hdigest ((length_zero_iff_empty _).mp h)
  have h2 : ¬ dir.length = 0 := fun h => hname ((length_zero_iff_empty _).mp h)
  unfold SignDigest
  simp only [if_neg h1, if_neg h2, hdir, hload, hhex]
  rfl

theorem loadKeyShares_congr (x : SigningWorld Signer PublicKey Provider Signature Context)
    (f : Nat → Signer → Context → Bytes → Provider → Option Signature × Option String)
    (dir : String) : ∀ (files : List String),
    loadKeyShares { x with calculateSignature := f } dir files = loadKeyShares x dir files := by
  intro files
  induction files with
  | nil => rfl
  | cons name rest ih => simp only [loadKeyShares, ih]

/-- Either `SignDigest` returns an error before any task is started, or the directory
is listed, every key share is loaded and the digest is decoded. -/
theorem SignDigest_cases (x : SigningWorld Signer PublicKey Provider Signature Context)
    (digest dir : String) (schedule : List Nat) :
    (∃ e, SignDigest x digest dir schedule = aborted e) ∨
    (∃ files signers providers digestBytes, digest ≠ "" ∧ dir ≠ "" ∧
      x.readDir dir = .ok files ∧
      loadKeyShares x dir files = .ok (signers, providers) ∧
      hexDecodeString digest = .ok digestBytes) := by
  by_cases h1 : digest.length = 0
  · left
    exact ⟨_, by unfold SignDigest; rw [if_pos h1]⟩
  by_cases h2 : dir.length = 0
  · left
    exact ⟨_, by unfold SignDigest; rw [if_neg h1, if_pos h2]⟩
  have hd : digest ≠ "" := fun h => h1 ((length_zero_iff_empty _).mpr h)
  have hn : dir ≠ "" := fun h => h2 ((length_zero_iff_empty _).mpr h)
  cases hdir : x.readDir dir with
  | error e =>
    left
    refine ⟨"could not read key shares directory: [" ++ e ++ "]", ?_⟩
    unfold SignDigest
    simp only [if_neg h1, if_neg h2, hdir]
  | ok files =>
    cases hload : loadKeyShares x dir files with
    | error e =>
      left
      refine ⟨e, ?_⟩
      unfold SignDigest
      simp only [if_neg h1, if_neg h2, hdir, hload]
    | ok pair =>
      obtain ⟨signers, providers⟩ := pair
      cases hhex : hexDecodeString digest with
      | error e =>
        left
        refine ⟨"could not decode digest string: [" ++ e ++ "]", ?_⟩
        unfold SignDigest
        simp only [if_neg h1, if_neg h2, hdir, hload, hhex]
      | ok digestBytes =>
        right
        exact ⟨files, signers, providers, digestBytes, hd, hn, rfl, hload, rfl⟩

/-- Past the join, the task of every index has made one call and sent one outcome. -/
theorem SignDigest_participant (x : SigningWorld Signer PublicKey Provider Signature Context)
    (digest dir : String) (files : List String) (signers : List Signer)
    (providers : List Provider) (digestBytes : Bytes) (schedule : List Nat)
    (hdigest : digest ≠ "") (hname : dir ≠ "")
    (hdir : x.readDir dir = .ok files)
    (hload : loadKeyShares x dir files = .ok (signers, providers))
    (hhex : hexDecodeString digest = .ok digestBytes)
    (hall : ∀ i, i < files.length → i ∈ schedule) (j : Nat) (hj : j < files.length) :
    ∃ o c, outcomeOf x signers providers (x.withTimeout oneMinute) digestBytes j = some o ∧
      callOf signers providers (x.withTimeout oneMinute) digestBytes j = some c ∧
      o ∈ (SignDigest x digest dir schedule).outcomes ∧
      (SignDigest x digest dir schedule).outcomes.filter
        (fun o => decide (o.signerIndex = j)) = [o] ∧
      (SignDigest x digest dir schedule).calls.filter
        (fun c => decide (c.signerIndex = j)) = [c] := by
  obtain ⟨hs, hp, _⟩ := loadKeyShares_ok x dir files signers providers hload
  have hall' : ∀ i, i < signers.length → i ∈ schedule := fun i hi => hall i (hs ▸ hi)
  have h0 := fanOut_counter_zero x signers providers digestBytes schedule (hp.trans hs.symm) hall'
  have hjoin := fanOut_joining x signers providers digestBytes schedule
  have hperm := joined_perm x signers providers _ digestBytes _ hjoin h0
  have hnodup : ((fanOut x signers providers digestBytes schedule).channel.map
      (fun o => o.signerIndex)).Nodup :=
    (List.Perm.nodup_iff hperm).mpr (List.nodup_range _)
  have hjmem : j ∈ (fanOut x signers providers digestBytes schedule).channel.map
      (fun o => o.signerIndex) :=
    hperm.symm.subset (List.mem_range.mpr (hs ▸ hj))
  obtain ⟨o, ho, hoj⟩ := List.mem_map.mp hjmem
  have hjmem' : j ∈ (fanOut x signers providers digestBytes schedule).calls.map
      (fun c => c.signerIndex) := by
    rw [hjoin.calls_index]
    exact hjmem
  obtain ⟨c, hc, hcj⟩ := List.mem_map.mp hjmem'
  have ho' := hjoin.outcome_eq o ho
  have hc' := hjoin.call_eq c hc
  have hoj : o.signerIndex = j := hoj
  have hcj : c.signerIndex = j := hcj
  rw [hoj] at ho'
  rw [hcj] at hc'
  rw [SignDigest_loaded x digest dir files signers providers digestBytes schedule hdigest hname
    hdir hload hhex, if_pos h0]
  refine ⟨o, c, ho', hc', ho, ?_, ?_⟩
  · have := filter_index_singleton (fun o : signingOutcome Signature => o.signerIndex) _
      hnodup o ho
    simp only [hoj] at this
    exact this
  · have := filter_index_singleton (fun c : SigningCall Signer Provider Context => c.signerIndex)
      _ (hjoin.calls_index ▸ hnodup) c hc
    simp only [hcj] at this
    exact this

/-- The command past the join: what `SignDigest` does once every task has run. -/
theorem SignDigest_joined (x : SigningWorld Signer PublicKey Provider Signature Context)
    (digest dir : String) (files : List String) (signers : List Signer)
    (providers : List Provider) (digestBytes : Bytes) (schedule : List Nat)
    (hdigest : digest ≠ "") (hname : dir ≠ "")
    (hdir : x.readDir dir = .ok files)
    (hload : loadKeyShares x dir files = .ok (signers, providers))
    (hhex : hexDecodeString digest = .ok digestBytes)
    (hall : ∀ i, i < files.length → i ∈ schedule) :
    SignDigest x digest dir schedule =
      { status := .returned none
        calls := (fanOut x signers providers digestBytes schedule).calls
        sent := (fanOut x signers providers digestBytes schedule).channel
        outcomes := (fanOut x signers providers digestBytes schedule).channel
        log := report x (fanOut x signers providers digestBytes schedule).channel
          ++ [LogLine.infof "signing completed"] } := by
  obtain ⟨hs, hp, _⟩ := loadKeyShares_ok x dir files signers providers hload
  have hall2 : ∀ i, i < signers.length → i ∈ schedule := fun i hi => hall i (hs ▸ hi)
  have h0 := fanOut_counter_zero x signers providers digestBytes schedule (hp.trans hs.symm) hall2
  rw [SignDigest_loaded x digest dir files signers providers digestBytes schedule hdigest hname
    hdir hload hhex, if_pos h0]

/-- Every order of completion can happen: when the schedule lets each task run once,
the final loop receives the outcomes in the order of the schedule. -/
theorem SignDigest_arrival_order (x : SigningWorld Signer PublicKey Provider Signature Context)
    (digest dir : String) (files : List String) (signers : List Signer)
    (providers : List Provider) (digestBytes : Bytes) (schedule : List Nat)
    (hdigest : digest ≠ "") (hname : dir ≠ "")
    (hdir : x.readDir dir = .ok files)
    (hload : loadKeyShares x dir files = .ok (signers, providers))
    (hhex : hexDecodeString digest = .ok digestBytes)
    (hperm : schedule.Perm (List.range files.length)) :
    (SignDigest x digest dir schedule).outcomes.map (fun o => o.signerIndex) = schedule := by
  obtain ⟨hs, hp, _⟩ := loadKeyShares_ok x dir files signers providers hload
  have hall : ∀ i, i < files.length → i ∈ schedule :=
    fun i hi => hperm.symm.subset (List.mem_range.mpr hi)
  rw [SignDigest_joined x digest dir files signers providers digestBytes schedule hdigest hname
    hdir hload hhex hall]
  have := fold_channel_order x signers providers (x.withTimeout oneMinute) digestBytes
    (hp.trans hs.symm) schedule _ (launch_joining x signers providers _ digestBytes)
    ((List.Perm.nodup_iff hperm).mpr (List.nodup_range _))
    (fun k hk => by
      have hk2 := hperm.subset hk
      rw [hs.symm] at hk2
      exact hk2)
  simpa [fanOut, launch] using this

/-! ## The properties of `SignDigest` -/

/-- C1 (outcome completeness). When `SignDigest` gets to list the directory (both flags
are set), the directory lists `files`, every key share is loaded and the digest is
decoded, then under every schedule that lets each of the
`files.length` tasks run, in whatever order, `SignDigest` gets past the join and its
final loop receives exactly `files.length` outcomes, whose `signerIndex` values are
pairwise distinct and are exactly the numbers below `files.length`; with no key share
it receives no outcome. -/
theorem SignDigest_outcomes_complete
    (x : SigningWorld Signer PublicKey Provider Signature Context)
    (digest dir : String) (files : List String) (signers : List Signer)
    (providers : List Provider) (digestBytes : Bytes) (schedule : List Nat)
    (hdigest : digest ≠ "") (hname : dir ≠ "")
    (hdir : x.readDir dir = .ok files)
    (hload : loadKeyShares x dir files = .ok (signers, providers))
    (hhex : hexDecodeString digest = .ok digestBytes)
    (hall : ∀ i, i < files.length → i ∈ schedule) :
    signers.length = files.length ∧
    (SignDigest x digest dir schedule).status = .returned none ∧
    (SignDigest x digest dir schedule).outcomes.length = files.length ∧
    ((SignDigest x digest dir schedule).outcomes.map (fun o => o.signerIndex)).Nodup ∧
    (∀ i, i ∈ (SignDigest x digest dir schedule).outcomes.map (fun o => o.signerIndex) ↔
      i < files.length) ∧
    (files.length = 0 → (SignDigest x digest dir schedule).outcomes = []) := by
  obtain ⟨hs, hp, _⟩ := loadKeyShares_ok x dir files signers providers hload
  have hall' : ∀ i, i < signers.length → i ∈ schedule := fun i hi => hall i (hs ▸ hi)
  have h0 := fanOut_counter_zero x signers providers digestBytes schedule (hp.trans hs.symm) hall'
  have hjoin := fanOut_joining x signers providers digestBytes schedule
  have hperm := joined_perm x signers providers _ digestBytes _ hjoin h0
  rw [SignDigest_loaded x digest dir files signers providers digestBytes schedule hdigest hname
    hdir hload hhex, if_pos h0]
  have hlen : (fanOut x signers providers digestBytes schedule).channel.length = files.length := by
    have := hperm.length_eq
    simpa [hs] using this
  refine ⟨hs, rfl, hlen, (List.Perm.nodup_iff hperm).mpr (List.nodup_range _), ?_, ?_⟩
  · intro i
    rw [List.Perm.mem_iff hperm, List.mem_range, hs]
  · intro hzero
    exact List.length_eq_zero.mp (hlen.trans hzero)

theorem SignDigest_outcomes_complete_witness :
    (SignDigest sampleWorld "d0ff" "shares" [2, 0, 1]).status = .returned none ∧
    (SignDigest sampleWorld "d0ff" "shares" [2, 0, 1]).outcomes.length = 3 ∧
    ((SignDigest sampleWorld "d0ff" "shares" [2, 0, 1]).outcomes.map
      (fun o => o.signerIndex)).Nodup ∧
    (∀ i, i ∈ (SignDigest sampleWorld "d0ff" "shares" [2, 0, 1]).outcomes.map
      (fun o => o.signerIndex) ↔ i < 3) :=
  have h := SignDigest_outcomes_complete sampleWorld "d0ff" "shares" ["a", "b", "c"]
    [1, 2, 3] [1101, 1102, 1103] [208, 255] [2, 0, 1] (by decide) (by decide) rfl rfl rfl
    (by decide)
  ⟨h.2.1, h.2.2.1, h.2.2.2.1, h.2.2.2.2.1⟩

/-- C2 (attribution and isolation). Under the conditions of C1, for every index `j`
below the number of key shares: the `j`-th entry of the directory was read, deserialised
into the signer `j` and given the provider of that signer's own public key; the task `j`
made one call of `CalculateSignature`, on that signer, the shared context, the decoded
digest and that provider; the one outcome tagged `j` carries the signature and the error
of that call; when that call returned no error the log has the signature line of `j`;
and in any other run that differs only in what the call of a participant `i ≠ j`
returns, under any schedule, the outcome tagged `j` is the same. -/
theorem SignDigest_outcome_of_participant
    (x : SigningWorld Signer PublicKey Provider Signature Context)
    (digest dir : String) (files : List String) (signers : List Signer)
    (providers : List Provider) (digestBytes : Bytes) (schedule : List Nat)
    (hdigest : digest ≠ "") (hname : dir ≠ "")
    (hdir : x.readDir dir = .ok files)
    (hload : loadKeyShares x dir files = .ok (signers, providers))
    (hhex : hexDecodeString digest = .ok digestBytes)
    (hall : ∀ i, i < files.length → i ∈ schedule) (j : Nat) (hj : j < files.length) :
    ∃ name keyShareBytes signer operatorPublicKey,
      files[j]? = some name ∧
      x.readFile (dir ++ "/" ++ name) = .ok keyShareBytes ∧
      x.unmarshal keyShareBytes = .ok signer ∧
      x.publicKey signer = .ok operatorPublicKey ∧
      (SignDigest x digest dir schedule).calls.filter (fun c => decide (c.signerIndex = j))
        = [⟨j, signer, x.withTimeout oneMinute, digestBytes,
            x.connectWithKey operatorPublicKey⟩] ∧
      (SignDigest x digest dir schedule).outcomes.filter (fun o => decide (o.signerIndex = j))
        = [⟨j,
            (x.calculateSignature j signer (x.withTimeout oneMinute) digestBytes
              (x.connectWithKey operatorPublicKey)).1,
            (x.calculateSignature j signer (x.withTimeout oneMinute) digestBytes
              (x.connectWithKey operatorPublicKey)).2⟩] ∧
      ((x.calculateSignature j signer (x.withTimeout oneMinute) digestBytes
          (x.connectWithKey operatorPublicKey)).2 = none →
        LogLine.infof ("[signer:" ++ toString j ++ "] signature: ["
          ++ x.showSignature
            (x.calculateSignature j signer (x.withTimeout oneMinute) digestBytes
              (x.connectWithKey operatorPublicKey)).1 ++ "]")
          ∈ (SignDigest x digest dir schedule).log) ∧
      (∀ (i : Nat)
        (f : Nat → Signer → Context → Bytes → Provider → Option Signature × Option String)
        (schedule2 : List Nat), i ≠ j →
        (∀ k, k ≠ i → f k = x.calculateSignature k) →
        (∀ k, k < files.length → k ∈ schedule2) →
        (SignDigest { x with calculateSignature := f } digest dir schedule2).outcomes.filter
            (fun o => decide (o.signerIndex = j))
          = (SignDigest x digest dir schedule).outcomes.filter
            (fun o => decide (o.signerIndex = j))) := by
  obtain ⟨hs, hp, hget⟩ := loadKeyShares_ok x dir files signers providers hload
  obtain ⟨name, keyShareBytes, signer, pk, e1, e2, e3, e4, e5, e6⟩ := hget j hj
  obtain ⟨o, c, ho, hc, hmem, hfo, hfc⟩ := SignDigest_participant x digest dir files signers
    providers digestBytes schedule hdigest hname hdir hload hhex hall j hj
  simp only [outcomeOf, e5, e6, Option.some.injEq] at ho
  simp only [callOf, e5, e6, Option.some.injEq] at hc
  refine ⟨name, keyShareBytes, signer, pk, e1, e2, e3, e4, ?_, ?_, ?_, ?_⟩
  · rw [hfc, ← hc]
  · rw [hfo, ← ho]
  · intro herr
    have hlog := report_signature x (SignDigest x digest dir schedule).outcomes o hmem
      (by rw [← ho]; exact herr)
    have h0 : (SignDigest x digest dir schedule).log
        = report x (SignDigest x digest dir schedule).outcomes
          ++ [LogLine.infof "signing completed"] := by
      rw [SignDigest_joined x digest dir files signers providers digestBytes schedule hdigest
        hname hdir hload hhex hall]
    rw [h0, List.mem_append]
    left
    rw [← ho] at hlog
    exact hlog
  · intro i f schedule2 hij hf hall2
    have hload2 : loadKeyShares { x with calculateSignature := f } dir files
        = .ok (signers, providers) := by
      rw [loadKeyShares_congr]
      exact hload
    obtain ⟨o2, _, ho2, _, _, hfo2, _⟩ := SignDigest_participant
      { x with calculateSignature := f } digest dir files signers
      providers digestBytes schedule2 hdigest hname hdir hload2 hhex hall2 j hj
    simp only [outcomeOf, e5, e6, Option.some.injEq] at ho2
    rw [hfo2, hfo, ← ho, ← ho2, hf j (Ne.symm hij)]

theorem SignDigest_outcome_of_participant_witness :
    ∃ name keyShareBytes signer operatorPublicKey,
      ["a", "b", "c"][2]? = some name ∧
      sampleWorld.readFile ("shares" ++ "/" ++ name) = .ok keyShareBytes ∧
      sampleWorld.unmarshal keyShareBytes = .ok signer ∧
      sampleWorld.publicKey signer = .ok operatorPublicKey ∧
      (SignDigest sampleWorld "d0ff" "shares" [2, 0, 1]).outcomes.filter
          (fun o => decide (o.signerIndex = 2))
        = [⟨2,
            (sampleWorld.calculateSignature 2 signer (sampleWorld.withTimeout oneMinute)
              [208, 255] (sampleWorld.connectWithKey operatorPublicKey)).1,
            (sampleWorld.calculateSignature 2 signer (sampleWorld.withTimeout oneMinute)
              [208, 255] (sampleWorld.connectWithKey operatorPublicKey)).2⟩] :=
  have ⟨name, keyShareBytes, signer, pk, h1, h2, h3, h4, _, h6, _⟩ :=
    SignDigest_outcome_of_participant sampleWorld "d0ff" "shares" ["a", "b", "c"]
      [1, 2, 3] [1101, 1102, 1103] [208, 255] [2, 0, 1] (by decide) (by decide) rfl rfl rfl
      (by decide) 2 (by decide)
  ⟨name, keyShareBytes, signer, pk, h1, h2, h3, h4, h6⟩

/-- C3 (fail fast on load). When the directory lists a file that cannot be read, or
cannot be deserialised into a signer, or whose signer has no public key, `SignDigest`
returns an error, whatever the other entries, the digest and the schedule are: no call
of `CalculateSignature` is made, no outcome is sent, none is received and nothing is
logged. -/
theorem SignDigest_fails_fast_on_load
    (x : SigningWorld Signer PublicKey Provider Signature Context)
    (digest dir : String) (files : List String) (schedule : List Nat) (name : String)
    (hdir : x.readDir dir = .ok files) (hmem : name ∈ files) (hbad : Corrupt x dir name) :
    (∃ e, (SignDigest x digest dir schedule).status = .returned (some e)) ∧
    (SignDigest x digest dir schedule).calls = [] ∧
    (SignDigest x digest dir schedule).sent = [] ∧
    (SignDigest x digest dir schedule).outcomes = [] ∧
    (SignDigest x digest dir schedule).log = [] := by
  rcases SignDigest_cases x digest dir schedule with ⟨e, he⟩ | h
  · rw [he]
    exact ⟨⟨e, rfl⟩, rfl, rfl, rfl, rfl⟩
  · exfalso
    obtain ⟨files2, signers, providers, _, _, _, hdir2, hload, _⟩ := h
    rw [hdir] at hdir2
    cases hdir2
    obtain ⟨e, he⟩ := loadKeyShares_corrupt x dir files name hmem hbad
    rw [he] at hload
    cases hload

theorem SignDigest_fails_fast_on_load_witness :
    (∃ e, (SignDigest sampleWorld "d0ff" "mixed" [0, 1, 2]).status = .returned (some e)) ∧
    (SignDigest sampleWorld "d0ff" "mixed" [0, 1, 2]).calls = [] ∧
    (SignDigest sampleWorld "d0ff" "mixed" [0, 1, 2]).sent = [] ∧
    (SignDigest sampleWorld "d0ff" "mixed" [0, 1, 2]).outcomes = [] ∧
    (SignDigest sampleWorld "d0ff" "mixed" [0, 1, 2]).log = [] :=
  SignDigest_fails_fast_on_load sampleWorld "d0ff" "mixed" ["a", "bad", "c"] [0, 1, 2] "bad"
    rfl (by decide) (by simp [Corrupt, sampleWorld])

/-- C4 (malformed digest). When the digest is empty, or has odd length, or holds a
character that is no hexadecimal digit, `SignDigest` returns an error, whatever the
directory holds and whatever the schedule is: no call of `CalculateSignature` is made,
no outcome is sent, none is received and nothing is logged. -/
theorem SignDigest_rejects_malformed_digest
    (x : SigningWorld Signer PublicKey Provider Signature Context)
    (digest dir : String) (schedule : List Nat)
    (hbad : digest = "" ∨ digest.length % 2 = 1 ∨
      ∃ c ∈ digest.toList, fromHexChar c = none) :
    (∃ e, (SignDigest x digest dir schedule).status = .returned (some e)) ∧
    (SignDigest x digest dir schedule).calls = [] ∧
    (SignDigest x digest dir schedule).sent = [] ∧
    (SignDigest x digest dir schedule).outcomes = [] ∧
    (SignDigest x digest dir schedule).log = [] := by
  rcases SignDigest_cases x digest dir schedule with ⟨e, he⟩ | h
  · rw [he]
    exact ⟨⟨e, rfl⟩, rfl, rfl, rfl, rfl⟩
  · exfalso
    obtain ⟨_, _, _, digestBytes, hd, _, _, _, hhex⟩ := h
    obtain ⟨heven, hdigits⟩ := (hexDecodeString_ok_iff digest).mp ⟨digestBytes, hhex⟩
    rcases hbad with h | h | ⟨c, hc, hnone⟩
    · exact hd h
    · omega
    · exact hdigits c hc hnone

theorem SignDigest_rejects_malformed_digest_witness :
    (∃ e, (SignDigest sampleWorld "0xd0ff" "shares" [0, 1, 2]).status = .returned (some e)) ∧
    (SignDigest sampleWorld "0xd0ff" "shares" [0, 1, 2]).calls = [] ∧
    (SignDigest sampleWorld "0xd0ff" "shares" [0, 1, 2]).sent = [] ∧
    (SignDigest sampleWorld "0xd0ff" "shares" [0, 1, 2]).outcomes = [] ∧
    (SignDigest sampleWorld "0xd0ff" "shares" [0, 1, 2]).log = [] :=
  SignDigest_rejects_malformed_digest sampleWorld "0xd0ff" "shares" [0, 1, 2]
    (Or.inr (Or.inr ⟨'x', by decide, by decide⟩))

/-- C5 (signing errors are not fatal). When `SignDigest` gets to list the directory
(both flags are set), the directory lists `files`, every key share is loaded and the
digest is decoded, then whatever the calls of
`CalculateSignature` return, once every task has run `SignDigest` returns `nil`; its
log has one line for each participant, an error line for each outcome with an error,
and ends with the line "signing completed". -/
theorem SignDigest_signing_errors_not_fatal
    (x : SigningWorld Signer PublicKey Provider Signature Context)
    (digest dir : String) (files : List String) (signers : List Signer)
    (providers : List Provider) (digestBytes : Bytes) (schedule : List Nat)
    (hdigest : digest ≠ "") (hname : dir ≠ "")
    (hdir : x.readDir dir = .ok files)
    (hload : loadKeyShares x dir files = .ok (signers, providers))
    (hhex : hexDecodeString digest = .ok digestBytes)
    (hall : ∀ i, i < files.length → i ∈ schedule) :
    (SignDigest x digest dir schedule).status = .returned none ∧
    (SignDigest x digest dir schedule).log.getLast? = some (LogLine.infof "signing completed") ∧
    (SignDigest x digest dir schedule).log.length = files.length + 1 ∧
    (∀ o ∈ (SignDigest x digest dir schedule).outcomes, ∀ e, o.err = some e →
      LogLine.errorf ("[signer:" ++ toString o.signerIndex ++ "] error: [" ++ e ++ "]")
        ∈ (SignDigest x digest dir schedule).log) := by
  obtain ⟨hs, hp, _⟩ := loadKeyShares_ok x dir files signers providers hload
  have hall2 : ∀ i, i < signers.length → i ∈ schedule := fun i hi => hall i (hs ▸ hi)
  have h0 := fanOut_counter_zero x signers providers digestBytes schedule (hp.trans hs.symm) hall2
  have hjoin := fanOut_joining x signers providers digestBytes schedule
  have hperm := joined_perm x signers providers _ digestBytes _ hjoin h0
  have hlen : (fanOut x signers providers digestBytes schedule).channel.length = files.length := by
    have := hperm.length_eq
    simpa [hs] using this
  rw [SignDigest_joined x digest dir files signers providers digestBytes schedule hdigest hname
    hdir hload hhex hall]
  refine ⟨rfl, ?_, ?_, ?_⟩
  · simp
  · simp [report_length, hlen]
  · intro o ho e he
    exact List.mem_append_left _ (report_error x _ o ho e he)

theorem SignDigest_signing_errors_not_fatal_witness :
    (SignDigest failingWorld "d0ff" "shares" [1, 2, 0]).status = .returned none ∧
    (SignDigest failingWorld "d0ff" "shares" [1, 2, 0]).log.getLast?
      = some (LogLine.infof "signing completed") ∧
    (SignDigest failingWorld "d0ff" "shares" [1, 2, 0]).log.length = 3 + 1 :=
  have h := SignDigest_signing_errors_not_fatal failingWorld "d0ff" "shares" ["a", "b", "c"]
    [1, 2, 3] [1101, 1102, 1103] [208, 255] [1, 2, 0] (by decide) (by decide) rfl rfl rfl
    (by decide)
  ⟨h.1, h.2.1, h.2.2.1⟩

/-- C6 (signature or error). When `CalculateSignature` keeps its contract of yielding a
signature or an error, every outcome that `SignDigest` builds and sends, and so every
outcome that its final loop receives, has exactly one of the two set: the signature is
there if and only if the error is `nil`. -/
theorem SignDigest_outcome_signature_xor_error
    (x : SigningWorld Signer PublicKey Provider Signature Context)
    (hcontract : SignatureOrError x) (digest dir : String) (schedule : List Nat) :
    (∀ o ∈ (SignDigest x digest dir schedule).sent,
      (o.signature.isSome = true ↔ o.err = none)) ∧
    (∀ o ∈ (SignDigest x digest dir schedule).outcomes,
      (o.signature.isSome = true ↔ o.err = none)) := by
  rcases SignDigest_cases x digest dir schedule with ⟨e, he⟩ | h
  · rw [he]
    constructor <;> intro o ho <;> cases ho
  · obtain ⟨files, signers, providers, digestBytes, hd, hn, hdir, hload, hhex⟩ := h
    have hjoin := fanOut_joining x signers providers digestBytes schedule
    have key : ∀ o ∈ (fanOut x signers providers digestBytes schedule).channel,
        (o.signature.isSome = true ↔ o.err = none) := by
      intro o ho
      have hov := hjoin.outcome_eq o ho
      unfold outcomeOf at hov
      split at hov
      · rename_i signer provider _ _
        have hoeq := Option.some.inj hov
        rw [← hoeq]
        exact hcontract _ signer _ _ provider
      · cases hov
    rw [SignDigest_loaded x digest dir files signers providers digestBytes schedule hd hn
      hdir hload hhex]
    split_ifs
    · exact ⟨key, key⟩
    · refine ⟨key, ?_⟩
      intro o ho
      cases ho

theorem SignDigest_outcome_signature_xor_error_witness :
    SignatureOrError sampleWorld ∧
    ∀ o ∈ (SignDigest sampleWorld "d0ff" "shares" [2, 0, 1]).outcomes,
      (o.signature.isSome = true ↔ o.err = none) :=
  have hcontract : SignatureOrError sampleWorld := by
    intro k signer ctx digestBytes provider
    by_cases hk : k = 1 <;> simp [sampleWorld, hk]
  ⟨hcontract,
    (SignDigest_outcome_signature_xor_error sampleWorld hcontract "d0ff" "shares" [2, 0, 1]).2⟩

end SigningProofs

/-! ## Facts about the files -/

theorem store_lookup_ne (path : String) (data : Bytes) (perm : Nat) (q : String)
    (hq : q ≠ path) : ∀ (fs : FileSystem),
    (store fs path data perm).lookup q = fs.lookup q := by
  intro fs
  induction fs with
  | nil =>
    have hne : (q == path) = false := by simpa using hq
    simp [store, List.lookup, hne]
  | cons entry rest ih =>
    obtain ⟨r, f⟩ := entry
    by_cases hr : r = path
    · subst hr
      have hne : (q == r) = false := by simpa using hq
      simp [store, List.lookup, hne]
    · by_cases hqr : q = r
      · subst hqr
        simp [store, hr, List.lookup]
      · have hne : (q == r) = false := by simpa using hqr
        simp [store, hr, List.lookup, hne, ih]

theorem isNotExist_osStat (fs : FileSystem) (statFault : String → Option String)
    (path : String) (h : isNotExist (osStat fs statFault path) = true) :
    osStat fs statFault path = some .notExist ∧ fs.lookup path = none := by
  unfold osStat at h ⊢
  cases hf : statFault path with
  | some e => simp [hf, isNotExist] at h
  | none =>
    cases hl : fs.lookup path with
    | some f => simp [hf, hl, isNotExist] at h
    | none => simp

theorem hexText_toList (a : String) : ("0x" ++ a).toList = '0' :: 'x' :: a.toList := rfl

theorem precision_length (n : Nat) (s : String) :
    (precision n s).length = min n s.length := by
  show (s.toList.take n).length = min n s.toList.length
  exact List.length_take _ _

theorem precision_hexText (a : String) :
    precision 10 ("0x" ++ a) = "0x" ++ String.mk (a.toList.take 8) := by
  unfold precision
  rw [hexText_toList]
  rfl

theorem targetFilePath_length (k o : String) :
    (targetFilePath k o).length = 11 + min 10 k.length + min 10 o.length := by
  unfold targetFilePath
  rw [String.length_append, String.length_append, String.length_append, precision_length,
    precision_length]
  have h1 : "key_share_".length = 10 := by decide
  have h2 : "_".length = 1 := by decide
  rw [h1, h2]
  omega

section ExportProofs

variable {Address Handle Signer : Type}

/-- Either `DecryptKeyShare` stops before it computes the target path, with the files
untouched and without success, or it computes the path from the texts of the keep
address and of the operator address and goes on to the existence check and the write. -/
theorem DecryptKeyShare_cases (x : ExportWorld Address Handle Signer) (configPath : String)
    (args : List String) (fs : FileSystem) :
    ((DecryptKeyShare x configPath args fs).target = none ∧
      (DecryptKeyShare x configPath args fs).fs = fs ∧
      (DecryptKeyShare x configPath args fs).writes = [] ∧
      (DecryptKeyShare x configPath args fs).status ≠ .returned none) ∨
    (∃ config keyFileAddress handle signer rest signerBytes,
      x.readConfig configPath = .ok config ∧
      x.decryptKeyFile config.keyFile config.keyFilePassword = .ok keyFileAddress ∧
      x.isHexAddress (args.headD "") = true ∧
      x.newDiskHandle config.dataDir = .ok handle ∧
      x.getSigners handle config.keyFilePassword (x.hexToAddress (args.headD ""))
        = .ok (signer :: rest) ∧
      x.marshal signer = .ok signerBytes ∧
      DecryptKeyShare x configPath args fs =
        if !isNotExist (osStat fs x.statFault
            (targetFilePath (x.addressString (x.hexToAddress (args.headD "")))
              (x.addressString keyFileAddress))) then
          refused fs
            (some (targetFilePath (x.addressString (x.hexToAddress (args.headD "")))
              (x.addressString keyFileAddress)))
            ("could not write shares to file; file ["
              ++ targetFilePath (x.addressString (x.hexToAddress (args.headD "")))
                (x.addressString keyFileAddress)
              ++ "] already exists")
        else
          match writeFile fs x.writeFault
              (targetFilePath (x.addressString (x.hexToAddress (args.headD "")))
                (x.addressString keyFileAddress)) signerBytes readOnly with
          | .error e =>
            { status := .returned
                (some ("failed to write to file ["
                  ++ targetFilePath (x.addressString (x.hexToAddress (args.headD "")))
                    (x.addressString keyFileAddress)
                  ++ "]: [" ++ e ++ "]"))
              fs := fs
              target := some (targetFilePath (x.addressString (x.hexToAddress (args.headD "")))
                (x.addressString keyFileAddress))
              writes := [targetFilePath (x.addressString (x.hexToAddress (args.headD "")))
                (x.addressString keyFileAddress)]
              log := [] }
          | .ok fs1 =>
            { status := .returned none
              fs := fs1
              target := some (targetFilePath (x.addressString (x.hexToAddress (args.headD "")))
                (x.addressString keyFileAddress))
              writes := [targetFilePath (x.addressString (x.hexToAddress (args.headD "")))
                (x.addressString keyFileAddress)]
              log := [LogLine.infof
                ("key share has been decrypted successfully and written to file ["
                  ++ targetFilePath (x.addressString (x.hexToAddress (args.headD "")))
                    (x.addressString keyFileAddress)
                  ++ "]")] }) := by
  cases hconfig : x.readConfig configPath with
  | error e =>
    left
    unfold DecryptKeyShare
    simp only [hconfig,
      Bool.not_false, Bool.not_true, Bool.false_eq_true, ↓reduceIte]
    refine ⟨?_, ?_, ?_, ?_⟩ <;> first | rfl | trivial | (intro h; cases h)
  | ok config =>
    cases hkey : x.decryptKeyFile config.keyFile config.keyFilePassword with
    | error e =>
      left
      unfold DecryptKeyShare
      simp only [hconfig, hkey,
        Bool.not_false, Bool.not_true, Bool.false_eq_true, ↓reduceIte]
      refine ⟨?_, ?_, ?_, ?_⟩ <;> first | rfl | trivial | (intro h; cases h)
    | ok keyFileAddress =>
      cases hhex : x.isHexAddress (args.headD "") with
      | false =>
        left
        unfold DecryptKeyShare
        simp only [hconfig, hkey, hhex,
          Bool.not_false, Bool.not_true, Bool.false_eq_true, ↓reduceIte]
        refine ⟨?_, ?_, ?_, ?_⟩ <;> first | rfl | trivial | (intro h; cases h)
      | true =>
        cases hhandle : x.newDiskHandle config.dataDir with
        | error e =>
          left
          unfold DecryptKeyShare
          simp only [hconfig, hkey, hhex, hhandle,
            Bool.not_false, Bool.not_true, Bool.false_eq_true, ↓reduceIte]
          refine ⟨?_, ?_, ?_, ?_⟩ <;> first | rfl | trivial | (intro h; cases h)
        | ok handle =>
          cases hsigners : x.getSigners handle config.keyFilePassword
              (x.hexToAddress (args.headD "")) with
          | error e =>
            left
            unfold DecryptKeyShare
            simp only [hconfig, hkey, hhex, hhandle, hsigners,
              Bool.not_false, Bool.not_true, Bool.false_eq_true, ↓reduceIte]
            refine ⟨?_, ?_, ?_, ?_⟩ <;> first | rfl | trivial | (intro h; cases h)
          | ok signers =>
            cases signers with
            | nil =>
              left
              unfold DecryptKeyShare
              simp only [hconfig, hkey, hhex, hhandle, hsigners, Bool.not_true,
                Bool.false_eq_true, ↓reduceIte]
              refine ⟨?_, ?_, ?_, ?_⟩ <;> first | rfl | trivial
            | cons signer rest =>
              cases hmarshal : x.marshal signer with
              | error e =>
                left
                unfold DecryptKeyShare
                simp only [hconfig, hkey, hhex, hhandle, hsigners, hmarshal,
                  Bool.not_false, Bool.not_true, Bool.false_eq_true, ↓reduceIte]
                refine ⟨?_, ?_, ?_, ?_⟩ <;> first | rfl | trivial | (intro h; cases h)
              | ok signerBytes =>
                right
                refine ⟨config, keyFileAddress, handle, signer, rest, signerBytes, rfl, hkey,
                  rfl, hhandle, hsigners, hmarshal, ?_⟩
                unfold DecryptKeyShare
                simp only [hconfig, hkey, hhex, hhandle, hsigners, hmarshal, Bool.not_true,
                  Bool.false_eq_true, ↓reduceIte]

/-! ## The properties of `DecryptKeyShare` -/

/-- C8 (write-once export). Once `DecryptKeyShare` has computed its target path: if a
file is already there, the command returns the error "already exists", makes no write
and leaves the files as they were; a write is made at no path but the target, and
only when `os.Stat` of the target reported "does not exist", so that no file was there;
without a write the files are as they were, and every file at another path keeps its
contents and its permissions in every case. -/
theorem DecryptKeyShare_write_once (x : ExportWorld Address Handle Signer)
    (configPath : String) (args : List String) (fs : FileSystem) :
    (∀ p, (DecryptKeyShare x configPath args fs).target = some p → fs.lookup p ≠ none →
      (DecryptKeyShare x configPath args fs).status
        = .returned (some ("could not write shares to file; file [" ++ p ++ "] already exists")) ∧
      (DecryptKeyShare x configPath args fs).writes = [] ∧
      (DecryptKeyShare x configPath args fs).fs = fs) ∧
    (∀ q ∈ (DecryptKeyShare x configPath args fs).writes,
      (DecryptKeyShare x configPath args fs).target = some q ∧
      osStat fs x.statFault q = some .notExist ∧ fs.lookup q = none) ∧
    ((DecryptKeyShare x configPath args fs).writes = [] →
      (DecryptKeyShare x configPath args fs).fs = fs) ∧
    (∀ q, (DecryptKeyShare x configPath args fs).target ≠ some q →
      (DecryptKeyShare x configPath args fs).fs.lookup q = fs.lookup q) := by
  rcases DecryptKeyShare_cases x configPath args fs with ⟨h1, h2, h3, _⟩ | h
  · refine ⟨?_, ?_, fun _ => h2, fun q _ => by rw [h2]⟩
    · intro p hp
      rw [h1] at hp
      cases hp
    · intro q hq
      rw [h3] at hq
      cases hq
  · obtain ⟨config, keyFileAddress, handle, signer, rest, signerBytes, _, _, _, _, _, _,
      hrun⟩ := h
    rw [hrun]
    generalize targetFilePath (x.addressString (x.hexToAddress (args.headD "")))
      (x.addressString keyFileAddress) = target
    cases hstat : isNotExist (osStat fs x.statFault target) with
    | false =>
      simp only [Bool.not_false, ↓reduceIte, refused]
      refine ⟨?_, ?_, fun _ => by trivial, fun _ _ => by trivial⟩
      · intro p hp _
        cases hp
        exact ⟨by trivial, by trivial, by trivial⟩
      · intro q hq
        cases hq
    | true =>
      obtain ⟨hnot, hnone⟩ := isNotExist_osStat fs x.statFault target hstat
      simp only [Bool.not_true, Bool.false_eq_true, ↓reduceIte]
      unfold writeFile
      cases hfault : x.writeFault target with
      | some e =>
        simp only
        refine ⟨?_, ?_, fun _ => by trivial, fun _ _ => by trivial⟩
        · intro p hp hex
          cases hp
          exact absurd hnone hex
        · intro q hq
          rw [List.mem_singleton] at hq
          subst hq
          exact ⟨rfl, hnot, hnone⟩
      | none =>
        simp only
        refine ⟨?_, ?_, ?_, ?_⟩
        · intro p hp hex
          cases hp
          exact absurd hnone hex
        · intro q hq
          rw [List.mem_singleton] at hq
          subst hq
          exact ⟨rfl, hnot, hnone⟩
        · intro hw
          cases hw
        · intro q hq
          have hne : q ≠ target := fun h => hq (by rw [h])
          exact store_lookup_ne target signerBytes readOnly q hne fs

theorem DecryptKeyShare_write_once_witness :
    (DecryptKeyShare sampleExportWorld "config.toml"
        ["0x5aAeb6053F3E94C9b9A09f33669435E7Ef1BeAed"] sampleFiles).status
      = .returned (some ("could not write shares to file; file ["
          ++ "key_share_0x5aAeb605_0xfB691609" ++ "] already exists")) ∧
    (DecryptKeyShare sampleExportWorld "config.toml"
        ["0x5aAeb6053F3E94C9b9A09f33669435E7Ef1BeAed"] sampleFiles).writes = [] ∧
    (DecryptKeyShare sampleExportWorld "config.toml"
        ["0x5aAeb6053F3E94C9b9A09f33669435E7Ef1BeAed"] sampleFiles).fs = sampleFiles :=
  (DecryptKeyShare_write_once sampleExportWorld "config.toml"
    ["0x5aAeb6053F3E94C9b9A09f33669435E7Ef1BeAed"] sampleFiles).1
    "key_share_0x5aAeb605_0xfB691609" (by decide) (by decide)

/-- C9 (no signers). On a registry lookup that succeeds with an empty list of signers,
`DecryptKeyShare` does not return an error: it selects `signers[0]` of the empty list
and stops with the runtime fault "index out of range"; no file is written. -/
theorem DecryptKeyShare_empty_signers_fault :
    sampleExportWorld.getSigners "/data" "password" "0x0000000000000000000000000000000000000000"
      = .ok [] ∧
    DecryptKeyShare sampleExportWorld "config.toml"
        ["0x0000000000000000000000000000000000000000"] sampleFiles
      = { status := .faulted "runtime error: index out of range [0] with length 0"
          fs := sampleFiles, target := none, writes := [], log := [] } := by
  constructor
  · rfl
  · decide

/-- A registry lookup that fails makes `DecryptKeyShare` return the error "no signers
for keep", without a write. -/
theorem DecryptKeyShare_lookup_error (x : ExportWorld Address Handle Signer)
    (configPath : String) (args : List String) (fs : FileSystem) (config : Config)
    (keyFileAddress : Address) (handle : Handle) (e : String)
    (hconfig : x.readConfig configPath = .ok config)
    (hkey : x.decryptKeyFile config.keyFile config.keyFilePassword = .ok keyFileAddress)
    (hhex : x.isHexAddress (args.headD "") = true)
    (hhandle : x.newDiskHandle config.dataDir = .ok handle)
    (hsigners : x.getSigners handle config.keyFilePassword (x.hexToAddress (args.headD ""))
      = .error e) :
    DecryptKeyShare x configPath args fs =
      refused fs none
        ("no signers for keep [" ++ x.addressString (x.hexToAddress (args.headD "")) ++ "]: ["
          ++ e ++ "]") := by
  unfold DecryptKeyShare
  simp only [hconfig, hkey, hhex, hhandle, hsigners, Bool.not_true, Bool.false_eq_true,
    ↓reduceIte]

/-- A registry lookup that succeeds without any signer makes `DecryptKeyShare` stop
with a runtime fault at `signers[0]`, without a write. -/
theorem DecryptKeyShare_lookup_empty (x : ExportWorld Address Handle Signer)
    (configPath : String) (args : List String) (fs : FileSystem) (config : Config)
    (keyFileAddress : Address) (handle : Handle)
    (hconfig : x.readConfig configPath = .ok config)
    (hkey : x.decryptKeyFile config.keyFile config.keyFilePassword = .ok keyFileAddress)
    (hhex : x.isHexAddress (args.headD "") = true)
    (hhandle : x.newDiskHandle config.dataDir = .ok handle)
    (hsigners : x.getSigners handle config.keyFilePassword (x.hexToAddress (args.headD ""))
      = .ok []) :
    DecryptKeyShare x configPath args fs =
      { status := .faulted "runtime error: index out of range [0] with length 0"
        fs := fs, target := none, writes := [], log := [] } := by
  unfold DecryptKeyShare
  simp only [hconfig, hkey, hhex, hhandle, hsigners, Bool.not_true, Bool.false_eq_true,
    ↓reduceIte]

/-- C10, as stated, fails: for the keep `0x5aAe...` and the operator `0xfB69...`, both
texts of 42 characters, the target path is `key_share_0x5aAeb605_0xfB691609`, which has
31 characters and not 32. -/
theorem targetFilePath_length_ne_32 :
    "0x5aAeb6053F3E94C9b9A09f33669435E7Ef1BeAed".length = 42 ∧
    "0xfB6916095ca1df60bB79Ce92cE3Ea74c37c5d359".length = 42 ∧
    (DecryptKeyShare sampleExportWorld "config.toml"
        ["0x5aAeb6053F3E94C9b9A09f33669435E7Ef1BeAed"] []).target
      = some (targetFilePath "0x5aAeb6053F3E94C9b9A09f33669435E7Ef1BeAed"
          "0xfB6916095ca1df60bB79Ce92cE3Ea74c37c5d359") ∧
    targetFilePath "0x5aAeb6053F3E94C9b9A09f33669435E7Ef1BeAed"
        "0xfB6916095ca1df60bB79Ce92cE3Ea74c37c5d359"
      = "key_share_0x5aAeb605_0xfB691609" ∧
    ¬ (targetFilePath "0x5aAeb6053F3E94C9b9A09f33669435E7Ef1BeAed"
        "0xfB6916095ca1df60bB79Ce92cE3Ea74c37c5d359").length = 32 := by
  decide

/-- C10 (amended). The target path that `DecryptKeyShare` computes is `targetFilePath`
of the text of the keep address and the text of the operator address, and of nothing
else: it is "key_share_", the first 10 characters of the keep address text, "_", and the
first 10 characters of the operator address text. When both texts are "0x" followed by
40 digits, each of the two parts is "0x" followed by the first 8 digits and the path has
31 characters. -/
theorem DecryptKeyShare_target_path (x : ExportWorld Address Handle Signer)
    (configPath : String) (args : List String) (fs : FileSystem) (config : Config)
    (keyFileAddress : Address) (p : String)
    (hconfig : x.readConfig configPath = .ok config)
    (hkey : x.decryptKeyFile config.keyFile config.keyFilePassword = .ok keyFileAddress)
    (htarget : (DecryptKeyShare x configPath args fs).target = some p) :
    p = targetFilePath (x.addressString (x.hexToAddress (args.headD "")))
      (x.addressString keyFileAddress) ∧
    p = "key_share_"
      ++ String.mk ((x.addressString (x.hexToAddress (args.headD ""))).toList.take 10)
      ++ "_" ++ String.mk ((x.addressString keyFileAddress).toList.take 10) ∧
    (∀ a b : String,
      x.addressString (x.hexToAddress (args.headD "")) = "0x" ++ a → a.length = 40 →
      x.addressString keyFileAddress = "0x" ++ b → b.length = 40 →
      p = "key_share_" ++ ("0x" ++ String.mk (a.toList.take 8)) ++ "_"
        ++ ("0x" ++ String.mk (b.toList.take 8)) ∧
      (String.mk (a.toList.take 8)).length = 8 ∧
      (String.mk (b.toList.take 8)).length = 8 ∧
      p.length = 31) := by
  have hp : p = targetFilePath (x.addressString (x.hexToAddress (args.headD "")))
      (x.addressString keyFileAddress) := by
    rcases DecryptKeyShare_cases x configPath args fs with ⟨h1, _⟩ | h
    · rw [h1] at htarget
      cases htarget
    · obtain ⟨config2, keyFileAddress2, _, _, _, signerBytes, hc, hk, _, _, _, _, hrun⟩ := h
      rw [hconfig] at hc
      cases hc
      rw [hkey] at hk
      cases hk
      rw [hrun] at htarget
      cases hstat : isNotExist (osStat fs x.statFault
          (targetFilePath (x.addressString (x.hexToAddress (args.headD "")))
            (x.addressString keyFileAddress))) with
      | false =>
        simp only [hstat, Bool.not_false, ↓reduceIte, refused, Option.some.injEq] at htarget
        exact htarget.symm
      | true =>
        simp only [hstat, Bool.not_true, Bool.false_eq_true, ↓reduceIte] at htarget
        cases hw : writeFile fs x.writeFault
            (targetFilePath (x.addressString (x.hexToAddress (args.headD "")))
              (x.addressString keyFileAddress)) signerBytes readOnly with
        | error e =>
          simp only [hw, Option.some.injEq] at htarget
          exact htarget.symm
        | ok fs1 =>
          simp only [hw, Option.some.injEq] at htarget
          exact htarget.symm
  refine ⟨hp, hp, ?_⟩
  intro a b hka ha hkb hb
  have ha8 : (String.mk (a.toList.take 8)).length = 8 := by
    show (a.toList.take 8).length = 8
    rw [List.length_take]
    have : a.toList.length = 40 := ha
    omega
  have hb8 : (String.mk (b.toList.take 8)).length = 8 := by
    show (b.toList.take 8).length = 8
    rw [List.length_take]
    have : b.toList.length = 40 := hb
    omega
  refine ⟨?_, ha8, hb8, ?_⟩
  · rw [hp, hka, hkb]
    unfold targetFilePath
    rw [precision_hexText, precision_hexText]
  · have h2 : "0x".length = 2 := by decide
    rw [hp, targetFilePath_length, hka, hkb, String.length_append, String.length_append, h2,
      ha, hb]
    rfl

theorem DecryptKeyShare_target_path_witness :
    (DecryptKeyShare sampleExportWorld "config.toml"
        ["0x5aAeb6053F3E94C9b9A09f33669435E7Ef1BeAed"] sampleFiles).target
      = some "key_share_0x5aAeb605_0xfB691609" ∧
    "key_share_0x5aAeb605_0xfB691609"
      = "key_share_"
        ++ ("0x" ++ String.mk ("5aAeb6053F3E94C9b9A09f33669435E7Ef1BeAed".toList.take 8))
        ++ "_"
        ++ ("0x" ++ String.mk ("fB6916095ca1df60bB79Ce92cE3Ea74c37c5d359".toList.take 8)) ∧
    "key_share_0x5aAeb605_0xfB691609".length = 31 :=
  have h := (DecryptKeyShare_target_path sampleExportWorld "config.toml"
    ["0x5aAeb6053F3E94C9b9A09f33669435E7Ef1BeAed"] sampleFiles
    ⟨"keyfile.json", "password", "/data"⟩ "0xfB6916095ca1df60bB79Ce92cE3Ea74c37c5d359"
    "key_share_0x5aAeb605_0xfB691609" rfl rfl (by decide)).2.2
    "5aAeb6053F3E94C9b9A09f33669435E7Ef1BeAed" "fB6916095ca1df60bB79Ce92cE3Ea74c37c5d359"
    rfl (by decide) rfl (by decide)
  ⟨by decide, h.1, h.2.2.2⟩

end ExportProofs

end KeepEcdsa
